import Mathlib

/-!
Verification of the signature/DTO data-binding and validation engine
specified in spec.md. The repository ships only the engine's tests; the
engine itself (litestar's `_signature` models and `dto` factory) is not
part of the source tree here, so every definition below is a model of the
specification text (sections 2-4 and 6-8 of spec.md), built executable so
that concrete scenarios can be evaluated inside proofs.
-/

namespace Litestar

/-- Modelled from the spec: the five raw-data buckets of section 3
("source: one of {body, query, header, cookie, path}"); the engine's
source enumeration is missing from the tree. -/
inductive Source where
  | query
  | header
  | cookie
  | pathParam
  | body
deriving DecidableEq

/-- Modelled from the spec: a decoded JSON-like body value (section 6,
"body: decoded JSON-like value (mapping/sequence/scalar)"); the decoder
integration is missing from the tree. -/
inductive Json where
  | null
  | jbool (b : Bool)
  | jint (n : Int)
  | jstr (s : String)
  | arr (xs : List Json)
  | obj (kvs : List (String × Json))

/-- Modelled from the spec: a bound runtime value assigned to a field of
the target structure (sections 3 and 4.3); the engine's instance
representation is missing from the tree. `vNone` is the language's
"absent" marker used for optional fields. -/
inductive Value where
  | vNone
  | vBool (b : Bool)
  | vInt (n : Int)
  | vStr (s : String)
  | vSeq (xs : List Value)
  | vStruct (kvs : List (String × Value))

/-- Modelled from the spec: the shape of a validation failure message
(section 7 taxonomy: required-field-missing and type-coercion failure).
Rendered to the human-readable string by `ErrMsg.render`. -/
inductive ErrMsg where
  | fieldRequired
  | expectedGot (expected actual : String)
deriving DecidableEq

/-- The message format of section 4.3: Expected \x60type\x60, got
\x60actual-type\x60. -/
def expectedGotMsg (expected actual : String) : String :=
  "Expected \x60" ++ expected ++ "\x60, got \x60" ++ actual ++ "\x60"

/-- Render a structured message to its human-readable string. -/
def ErrMsg.render : ErrMsg → String
  | .fieldRequired => "field required"
  | .expectedGot e a => expectedGotMsg e a

/-- Modelled from the spec: ValidationError of section 3 (dotted-path
`key`, `message`, and optional `source` bucket); the engine's exception
type is missing from the tree. -/
structure VError where
  key : String
  msg : ErrMsg
  src : Option Source
deriving DecidableEq

/-- The human-readable message carried by a validation error. -/
def VError.message (e : VError) : String :=
  e.msg.render

/-- Modelled from the spec: the per-field metadata of a FieldDescriptor
(section 3) other than the declared type: declared `name`, `wireName`
(defaults to `name`, rewritten by the rename strategy), `dflt` (a
concrete default or none for the "empty" sentinel), `exclude` ("field is
never read from input nor written to output when true") and `readOnly`
(the non-writable marking of the section 8 scenarios: never read from
input, materialized from its default, still serialized). -/
structure FieldInfo where
  name : String
  wireName : String
  dflt : Option Value
  exclude : Bool
  readOnly : Bool

mutual

/-- Modelled from the spec: the semantic declared-type tags of section 3
(scalar int/str/bool, optional(T), sequence(T), nested-structure); the
type-resolver output is missing from the tree. A nested structure
carries its own ordered FieldDescriptor set. -/
inductive FType where
  | tInt
  | tStr
  | tBool
  | tOpt (t : FType)
  | tSeq (t : FType)
  | tStruct (fields : Fields)

/-- Modelled from the spec: an ordered FieldDescriptor set of one
structure (section 4.1 "ordered sequence of FieldDescriptor"), in field
declaration order. -/
inductive Fields where
  | nil
  | cons (info : FieldInfo) (t : FType) (rest : Fields)

end

/-- The wire-facing name of a declared type, as used in mismatch
messages (section 4.3). Optionals report their inner type. -/
def typeName : FType → String
  | .tInt => "int"
  | .tStr => "str"
  | .tBool => "bool"
  | .tOpt t => typeName t
  | .tSeq _ => "list"
  | .tStruct _ => "dict"

/-- The runtime type name of a decoded body value, as used in mismatch
messages (section 4.3, "got \x60actual-type\x60"). -/
def Json.typeName : Json → String
  | .null => "NoneType"
  | .jbool _ => "bool"
  | .jint _ => "int"
  | .jstr _ => "str"
  | .arr _ => "list"
  | .obj _ => "dict"

/-- Dotted-path key construction of section 3: `.` joins nested
structure traversal steps; the bind root contributes no segment. -/
def joinKey (path name : String) : String :=
  if path = "" then name else path ++ "." ++ name

/-- Whether the declared type is optional (section 3: declared type is
optional(T)). -/
def isOptTy : FType → Bool
  | .tOpt _ => true
  | _ => false

/-- Aggregation of two fallible results (section 4.5): errors from both
sides are kept, in order, and values concatenate on success; this is
what makes the binder never fail-fast. -/
def combineApp {α : Type} :
    Except (List VError) (List α) → Except (List VError) (List α) →
      Except (List VError) (List α)
  | .ok xs, .ok ys => .ok (xs ++ ys)
  | .ok _, .error es => .error es
  | .error es, .ok _ => .error es
  | .error es, .error es₂ => .error (es ++ es₂)

/-- Collect per-element results of a sequence (section 4.3): all element
errors are aggregated in element order; success yields the elements in
order. -/
def collectSeq : List (Except (List VError) Value) → Except (List VError) (List Value)
  | [] => .ok []
  | r :: rs =>
    combineApp (r.map (fun v => [v])) (collectSeq rs)

mutual

/-- Modelled from the spec: recursive validation of a decoded body value
against a declared type (section 4.3): runtime type mismatch yields an
`Expected/got` error at the dotted path, optionals accept null, sequence
elements are validated at `path.index` (zero-based), and nested
structures recurse via `validateFields`. The engine's implementation is
missing from the tree. Errors are created without a source bucket; the
top-level binder stamps the field's bucket on them. -/
def validateTy (path : String) (t : FType) (j : Json) : Except (List VError) Value :=
  match t, j with
  | .tOpt _, .null => .ok .vNone
  | .tOpt t, j => validateTy path t j
  | .tInt, .jint n => .ok (.vInt n)
  | .tStr, .jstr s => .ok (.vStr s)
  | .tBool, .jbool b => .ok (.vBool b)
  | .tSeq t, .arr xs =>
    (collectSeq ((xs.enum).map (fun p => validateTy (joinKey path (toString p.1)) t p.2))).map .vSeq
  | .tStruct fs, .obj kvs => (validateFields path fs kvs).map .vStruct
  | t, j => .error [⟨path, .expectedGot (typeName t) j.typeName, none⟩]
termination_by structural t

/-- Modelled from the spec: binding of a structure's ordered field set
from a decoded mapping (sections 4.3 and 4.4): excluded fields are never
read, read-only fields materialize from their default ignoring any
supplied value, a present wire name is validated recursively, an absent
field falls back to its default, then to the optional "absent" marker,
and otherwise records a "field required" error; all field errors are
aggregated in declaration order. -/
def validateFields (path : String) (fs : Fields) (kvs : List (String × Json)) :
    Except (List VError) (List (String × Value)) :=
  match fs with
  | .nil => .ok []
  | .cons info t rest =>
    let head : Except (List VError) (List (String × Value)) :=
      if info.exclude then .ok []
      else if info.readOnly then
        .ok (match info.dflt with
          | some d => [(info.name, d)]
          | none => [])
      else
        match kvs.lookup info.wireName with
        | some j => (validateTy (joinKey path info.name) t j).map (fun v => [(info.name, v)])
        | none =>
          match info.dflt with
          | some d => .ok [(info.name, d)]
          | none =>
            if isOptTy t then .ok [(info.name, .vNone)]
            else .error [⟨joinKey path info.name, .fieldRequired, none⟩]
    combineApp head (validateFields path rest kvs)
termination_by structural fs

end

/-! String helpers. Core `String.toLower`, `String.toUpper` and
`String.splitOn` do not reduce inside the kernel, so character-list
versions are defined here. -/

/-- All-lowercase copy of a string. -/
def lowerStr (s : String) : String :=
  String.mk (s.data.map Char.toLower)

/-- All-uppercase copy of a string. -/
def upperStr (s : String) : String :=
  String.mk (s.data.map Char.toUpper)

/-- Uppercase the first character, leaving the rest unchanged. -/
def capitalizeStr (s : String) : String :=
  match s.data with
  | [] => ""
  | c :: cs => String.mk (c.toUpper :: cs)

/-- Split a character list on underscores. -/
def splitWordsAux : List Char → List Char → List String
  | [], acc => [String.mk acc.reverse]
  | '_' :: cs, acc => String.mk acc.reverse :: splitWordsAux cs []
  | c :: cs, acc => splitWordsAux cs (c :: acc)

/-- Modelled from the spec: word-splitting for camel/pascal renaming is
"on underscore boundaries only" (section 4.2). -/
def splitWords (s : String) : List String :=
  splitWordsAux s.data []

/-- Concatenate a list of strings. -/
def joinStr : List String → String
  | [] => ""
  | w :: ws => w ++ joinStr ws

/-- Whether a field name begins with an underscore (section 4.4
private-field convention). -/
def startsUnderscore (s : String) : Bool :=
  match s.data with
  | '_' :: _ => true
  | _ => false

/-- Value of a decimal digit character. -/
def digitVal (c : Char) : Option Nat :=
  if c.isDigit then some (c.toNat - 48) else none

/-- Parse an unsigned decimal numeral; empty or non-digit input fails. -/
def parseNatChars : List Char → Option Nat
  | [] => none
  | cs => go cs 0
where
  go : List Char → Nat → Option Nat
    | [], acc => some acc
    | c :: cs, acc =>
      match digitVal c with
      | some d => go cs (acc * 10 + d)
      | none => none

/-- Modelled from the spec: numeric coercion of a raw string from
query/header/cookie/path to the declared int type (section 4.3); the
engine's coercion layer is missing from the tree. An optional leading
minus sign is accepted. -/
def parseIntStr (s : String) : Option Int :=
  match s.data with
  | '-' :: rest => (parseNatChars rest).map (fun n => -(n : Int))
  | cs => (parseNatChars cs).map Int.ofNat

/-- Modelled from the spec: the selectable rename policy of section 4.2
(identity, upper, lower, camel, pascal, or a custom string-to-string
function); the engine's RenameStrategy type is missing from the tree. -/
inductive RenameStrategy where
  | ident
  | upper
  | lower
  | camel
  | pascal
  | custom (f : String → String)

/-- Modelled from the spec: `apply(strategy, fieldName) -> wireName`
(section 4.2): upper is all caps, lower all lowercase, camel renders the
first word lowercase and capitalizes subsequent words with underscores
removed, pascal capitalizes all words with underscores removed. -/
def applyStrategy : RenameStrategy → String → String
  | .ident, s => s
  | .upper, s => upperStr s
  | .lower, s => lowerStr s
  | .camel, s =>
    match splitWords s with
    | [] => ""
    | w :: ws => lowerStr w ++ joinStr (ws.map capitalizeStr)
  | .pascal, s => joinStr ((splitWords s).map capitalizeStr)
  | .custom f, s => f s

/-- Modelled from the spec: boolean coercion of section 4.3 accepts the
literal tokens "1" and "true" (any case) as true and "0" and "false"
(any case) as false; anything else is a coercion error. -/
def coerceBool (s : String) : Except ErrMsg Value :=
  if lowerStr s = "1" ∨ lowerStr s = "true" then .ok (.vBool true)
  else if lowerStr s = "0" ∨ lowerStr s = "false" then .ok (.vBool false)
  else .error (.expectedGot "bool" "str")

/-- Modelled from the spec: coercion of one raw string value from
query/header/cookie/path to the declared scalar type (section 4.3); a
coercion failure is an `Expected/got` error whose actual type is the
raw string's. The engine's coercion layer is missing from the tree. -/
def coerceStr (t : FType) (s : String) : Except ErrMsg Value :=
  match t with
  | .tInt =>
    match parseIntStr s with
    | some n => .ok (.vInt n)
    | none => .error (.expectedGot "int" "str")
  | .tBool => coerceBool s
  | .tStr => .ok (.vStr s)
  | .tOpt t => coerceStr t s
  | .tSeq _ => .error (.expectedGot "list" "str")
  | .tStruct _ => .error (.expectedGot "dict" "str")

/-- Strip optional wrappers (section 4.1: the resolver determines the
declared type "by unwrapping optional/union wrappers"). -/
def underOpt : FType → FType
  | .tOpt t => underOpt t
  | t => t

/-- Modelled from the spec: a resolved top-level FieldDescriptor of the
handler signature (section 3): declared `name`, `wireName`, declared
type, `src` bucket, and default; the signature model is missing from the
tree. -/
structure Desc where
  name : String
  wireName : String
  ty : FType
  src : Source
  dflt : Option Value

/-- Modelled from the spec: the raw per-source mappings consumed by the
binder (section 6): multi-valued query parameters, single-valued
headers/cookies/path parameters, and a decoded body; the request layer
is missing from the tree. -/
structure RawSources where
  query : List (String × List String)
  headers : List (String × String)
  cookies : List (String × String)
  pathParams : List (String × String)
  body : Json

/-- Modelled from the spec: coercion of repeated query-parameter
occurrences into a sequence (section 4.3): all occurrences are collected
in appearance order, aggregating every element's coercion error at its
zero-based index. -/
def coerceElems (name : String) (t : FType) (i : Nat) (vs : List String) :
    Except (List VError) (List Value) :=
  match vs with
  | [] => .ok []
  | s :: rest =>
    let head : Except (List VError) (List Value) :=
      match coerceStr t s with
      | .ok v => .ok [v]
      | .error m => .error [⟨joinKey name (toString i), m, none⟩]
    combineApp head (coerceElems name t (i + 1) rest)

/-- Modelled from the spec: the absent-value rule of section 4.3 — "if
absent and the field has a default, use the default; if absent and
required, record a ValidationError with message field required"; a field
optional by declared type binds the absent marker. -/
def absentField (d : Desc) : Except (List VError) (List (String × Value)) :=
  match d.dflt with
  | some v => .ok [(d.name, v)]
  | none =>
    if isOptTy d.ty then .ok [(d.name, .vNone)]
    else .error [⟨d.name, .fieldRequired, none⟩]

/-- Coerce a single present raw string for a top-level field, keyed by
the field's declared name. -/
def bindStrField (d : Desc) (s : String) : Except (List VError) (List (String × Value)) :=
  match coerceStr d.ty s with
  | .ok v => .ok [(d.name, v)]
  | .error m => .error [⟨d.name, m, none⟩]

/-- Modelled from the spec: extraction and validation of one top-level
field from the bucket named by its source (section 4.3); body fields
consume the whole decoded body with bind-root-relative error keys,
query fields with a sequence declared type collect all occurrences, and
string buckets coerce single raw values. Source stamping happens in
`bindField`. The engine's implementation is missing from the tree. -/
def coreBindField (raw : RawSources) (d : Desc) : Except (List VError) (List (String × Value)) :=
  match d.src with
  | .body => (validateTy "" d.ty raw.body).map (fun v => [(d.name, v)])
  | .query =>
    match raw.query.lookup d.wireName with
    | none => absentField d
    | some vs =>
      match underOpt d.ty with
      | .tSeq e => (coerceElems d.name e 0 vs).map (fun xs => [(d.name, .vSeq xs)])
      | _ =>
        match vs with
        | [] => absentField d
        | s :: _ => bindStrField d s
  | .header =>
    match raw.headers.lookup d.wireName with
    | none => absentField d
    | some s => bindStrField d s
  | .cookie =>
    match raw.cookies.lookup d.wireName with
    | none => absentField d
    | some s => bindStrField d s
  | .pathParam =>
    match raw.pathParams.lookup d.wireName with
    | none => absentField d
    | some s => bindStrField d s

/-- Stamp the bucket a raw value came from onto an error (section 3:
ValidationError `source`). -/
def VError.withSrc (s : Source) (e : VError) : VError :=
  { e with src := some s }

/-- One top-level field's bound values or errors, every error stamped
with the field's source bucket. -/
def bindField (raw : RawSources) (d : Desc) : Except (List VError) (List (String × Value)) :=
  match coreBindField raw d with
  | .ok vs => .ok vs
  | .error es => .error (es.map (VError.withSrc d.src))

/-- The errors a single field contributes to the aggregator (empty when
the field binds successfully). -/
def fieldErrors (raw : RawSources) (d : Desc) : List VError :=
  match bindField raw d with
  | .ok _ => []
  | .error es => es

/-- The values a single field contributes on success. -/
def fieldValues (raw : RawSources) (d : Desc) : List (String × Value) :=
  match bindField raw d with
  | .ok vs => vs
  | .error _ => []

/-- Modelled from the spec: BoundResult of section 3 — either a fully
populated set of bound values or a non-empty ordered error list. -/
inductive BindResult where
  | success (values : List (String × Value))
  | failure (errors : List VError)

/-- One step of the binding pass: append the field's errors to the
aggregator or its values to the bound set (section 2 control flow). -/
def bindStep (raw : RawSources) (acc : List VError × List (String × Value)) (d : Desc) :
    List VError × List (String × Value) :=
  match bindField raw d with
  | .ok vs => (acc.1, acc.2 ++ vs)
  | .error es => (acc.1 ++ es, acc.2)

/-- Modelled from the spec: `bind(descriptors, rawSources) ->
BoundResult` (section 4.3): every descriptor is visited in declaration
order, errors are aggregated without fail-fast, and binding fails
atomically with all collected errors iff the aggregator is non-empty.
The engine's implementation is missing from the tree. -/
def bind (descs : List Desc) (raw : RawSources) : BindResult :=
  let r := descs.foldl (bindStep raw) ([], [])
  if r.1.isEmpty then .success r.2 else .failure r.1

mutual

/-- Modelled from the spec: the resolver's rename pass (section 4.1,
"applies configured rename strategy to produce wireName"), recursing
into nested structures so the strategy also applies to their fields. -/
def renameTy (strat : RenameStrategy) : FType → FType
  | .tStruct fs => .tStruct (renameFs strat fs)
  | .tOpt t => .tOpt (renameTy strat t)
  | .tSeq t => .tSeq (renameTy strat t)
  | t => t
termination_by structural t => t

/-- Rewrite every field's wire name to `apply(strategy, name)`. -/
def renameFs (strat : RenameStrategy) : Fields → Fields
  | .nil => .nil
  | .cons info t rest =>
    .cons { info with wireName := applyStrategy strat info.name }
      (renameTy strat t) (renameFs strat rest)
termination_by structural fs => fs

end

mutual

/-- Modelled from the spec: application of a dotted-path exclude set
(section 4.4, "excludeSet supports dotted paths for nested exclusion,
applied at every level of nested resolution"): a field whose dotted path
from the root is in the set is marked excluded, so it is dropped from
both input binding and output representation. -/
def applyExcl (paths : List String) (pfx : String) : FType → FType
  | .tStruct fs => .tStruct (applyExclFs paths pfx fs)
  | .tOpt t => .tOpt (applyExcl paths pfx t)
  | .tSeq t => .tSeq (applyExcl paths pfx t)
  | t => t
termination_by structural t => t

/-- Mark excluded fields of one descriptor set, recursing with the
extended dotted path. -/
def applyExclFs (paths : List String) (pfx : String) : Fields → Fields
  | .nil => .nil
  | .cons info t rest =>
    let key := joinKey pfx info.name
    .cons { info with exclude := info.exclude || paths.contains key }
      (applyExcl paths key t) (applyExclFs paths pfx rest)
termination_by structural fs => fs

end

mutual

/-- Modelled from the spec: the private-field convention of section 4.4:
when enabled, every field whose name starts with an underscore is
excluded from input binding and output representation; when disabled,
such fields behave as ordinary fields (the descriptor set is returned
unchanged). -/
def applyPrivate (enabled : Bool) : FType → FType
  | .tStruct fs => .tStruct (applyPrivateFs enabled fs)
  | .tOpt t => .tOpt (applyPrivate enabled t)
  | .tSeq t => .tSeq (applyPrivate enabled t)
  | t => t
termination_by structural t => t

/-- Mark leading-underscore fields excluded when the convention is on. -/
def applyPrivateFs (enabled : Bool) : Fields → Fields
  | .nil => .nil
  | .cons info t rest =>
    .cons { info with exclude := info.exclude || (enabled && startsUnderscore info.name) }
      (applyPrivate enabled t) (applyPrivateFs enabled rest)
termination_by structural fs => fs

end

mutual

/-- Modelled from the spec: the outbound serialization path
`toBuiltins` (section 6): turn a bound/domain value back into a
wire-shaped plain mapping honoring the same rename and exclusion rules;
the engine's transfer layer is missing from the tree. Shape mismatches
between the value and the declared type serialize as null. -/
def encodeTy (t : FType) (v : Value) : Json :=
  match t, v with
  | .tOpt _, .vNone => .null
  | .tOpt t, v => encodeTy t v
  | .tInt, .vInt n => .jint n
  | .tStr, .vStr s => .jstr s
  | .tBool, .vBool b => .jbool b
  | .tSeq t, .vSeq xs => .arr (xs.map (fun x => encodeTy t x))
  | .tStruct fs, .vStruct kvs => .obj (encodeFs fs kvs)
  | _, _ => .null
termination_by structural t

/-- Serialize one structure's fields in declaration order under their
wire names, skipping excluded fields; an attribute missing from the
value serializes as null. -/
def encodeFs (fs : Fields) (kvs : List (String × Value)) : List (String × Json) :=
  match fs with
  | .nil => []
  | .cons info t rest =>
    if info.exclude then encodeFs rest kvs
    else
      (info.wireName,
        match kvs.lookup info.name with
        | some v => encodeTy t v
        | none => .null) :: encodeFs rest kvs
termination_by structural fs

end

/-- Modelled from the spec: `toBuiltins(boundValues, excludeSet)`
(section 4.4) with the exclude set already resolved onto the descriptor
set: the wire-shaped plain-mapping representation of a value. -/
def toBuiltins (t : FType) (v : Value) : Json :=
  encodeTy t v

/-- Modelled from the spec: `applyPatch(existingInstance, partialValues)
-> TargetInstance` (section 4.4): only attributes present in
partialValues are overwritten, all others are left untouched. -/
def applyPatch (existing partialValues : List (String × Value)) : List (String × Value) :=
  existing.map (fun a =>
    match partialValues.lookup a.1 with
    | some w => (a.1, w)
    | none => a)

/-- Modelled from the spec: the partial (patch) binding mode of section
4.4: every top-level field becomes implicitly optional — an absent field
contributes nothing instead of an error or a default — and excluded or
read-only fields ignore any supplied value and contribute nothing. -/
def bindFieldsPatchMode (fs : Fields) (kvs : List (String × Json)) :
    Except (List VError) (List (String × Value)) :=
  match fs with
  | .nil => .ok []
  | .cons info t rest =>
    let head : Except (List VError) (List (String × Value)) :=
      if info.exclude || info.readOnly then .ok []
      else
        match kvs.lookup info.wireName with
        | some j => (validateTy info.name t j).map (fun v => [(info.name, v)])
        | none => .ok []
    combineApp head (bindFieldsPatchMode rest kvs)

/-! Concrete structures used by the spec's section 8 scenarios. -/

/-- A plain required field with no alias, default, or policy marking. -/
def reqField (n : String) : FieldInfo :=
  ⟨n, n, none, false, false⟩

/-- The nested structure child of the section 8 error-key scenario:
`{val: int, other_val: int}`. -/
def childTy : FType :=
  .tStruct (.cons (reqField "val") .tInt (.cons (reqField "other_val") .tInt .nil))

/-- The nested structure other_child of the section 8 error-key
scenario: `{val: sequence of int}`. -/
def otherChildTy : FType :=
  .tStruct (.cons (reqField "val") (.tSeq .tInt) .nil)

/-- The root structure of the section 8 error-key scenario. -/
def parentTy : FType :=
  .tStruct (.cons (reqField "child") childTy (.cons (reqField "other_child") otherChildTy .nil))

/-- The body-bound data descriptor for the root structure. -/
def parentDesc : Desc :=
  ⟨"data", "data", parentTy, .body, none⟩

/-- The invalid request body of the section 8 error-key scenario. -/
def c1body : Json :=
  .obj [("child", .obj [("val", .jstr "a"), ("other_val", .jstr "b")]),
        ("other_child", .obj [("val", .arr [.jint 1, .jstr "c"])])]

/-- The raw sources carrying only the section 8 scenario body. -/
def c1raw : RawSources :=
  ⟨[], [], [], [], c1body⟩

/-- The three aggregated errors the scenario produces. -/
def c1errs : List VError :=
  [⟨"child.val", .expectedGot "int" "str", some .body⟩,
   ⟨"child.other_val", .expectedGot "int" "str", some .body⟩,
   ⟨"other_child.val.1", .expectedGot "int" "str", some .body⟩]

/-- C1: for the structure `{child: {val: int, other_val: int},
other_child: {val: sequence of int}}` and request body
`{"child":{"val":"a","other_val":"b"},"other_child":{"val":[1,"c"]}}`,
binding fails with exactly 3 validation errors whose keys are, in this
order, child.val, child.other_val, and other_child.val.1 — the trailing
1 being the zero-based index of the first failing sequence element. -/
theorem nested_invalid_body_error_keys :
    bind [parentDesc] c1raw = .failure c1errs
      ∧ c1errs.map VError.key = ["child.val", "child.other_val", "other_child.val.1"]
      ∧ c1errs.length = 3 :=
  ⟨rfl, rfl, rfl⟩

/-- The user structure of the section 8 read-only scenario, with
`read_only` marked non-writable and defaulted to "read-only". -/
def userFields : Fields :=
  .cons (reqField "name") .tStr
    (.cons (reqField "age") .tInt
      (.cons ⟨"read_only", "read_only", some (.vStr "read-only"), false, true⟩ .tStr .nil))

/-- The user structure type of the section 8 read-only scenario. -/
def userTy : FType :=
  .tStruct userFields

/-- The body-bound data descriptor for the user structure. -/
def userDesc : Desc :=
  ⟨"data", "data", userTy, .body, none⟩

/-- C6: binding `{"name":"John","age":42,"read_only":"whoops"}` onto the
user structure succeeds — the supplied read_only value is ignored, not
an error — and the bound instance has name "John", age 42, and
read_only "read-only" (its default). -/
theorem read_only_field_ignores_supplied_value :
    bind [userDesc]
        ⟨[], [], [], [],
          .obj [("name", .jstr "John"), ("age", .jint 42), ("read_only", .jstr "whoops")]⟩
      = .success
          [("data",
            .vStruct [("name", .vStr "John"), ("age", .vInt 42), ("read_only", .vStr "read-only")])] :=
  rfl

/-! Aggregation facts used by the never-fail-fast claim. -/

/-- The error list of a fallible result (empty on success). -/
def errsOf {α : Type} : Except (List VError) α → List VError
  | .ok _ => []
  | .error es => es

theorem errsOf_map {α β : Type} (f : α → β) (r : Except (List VError) α) :
    errsOf (r.map f) = errsOf r := by
  cases r <;> rfl

theorem fieldErrors_eq (raw : RawSources) (d : Desc) :
    fieldErrors raw d = (errsOf (coreBindField raw d)).map (VError.withSrc d.src) := by
  cases h : coreBindField raw d <;> simp [fieldErrors, bindField, h, errsOf]

theorem foldl_bindStep (raw : RawSources) (descs : List Desc)
    (acc : List VError × List (String × Value)) :
    descs.foldl (bindStep raw) acc
      = (acc.1 ++ (descs.map (fieldErrors raw)).flatten,
         acc.2 ++ (descs.map (fieldValues raw)).flatten) := by
  induction descs generalizing acc with
  | nil => simp
  | cons d ds ih =>
    rw [List.foldl_cons, ih]
    cases h : bindField raw d <;>
      simp [bindStep, fieldErrors, fieldValues, h]

/-- Scalar declared types (no optional/sequence/structure wrapper). -/
def isScalarTy : FType → Bool
  | .tInt => true
  | .tStr => true
  | .tBool => true
  | _ => false

theorem validateTy_scalar_errs_len (path : String) (t : FType) (j : Json)
    (h : isScalarTy t = true) : (errsOf (validateTy path t j)).length ≤ 1 := by
  cases t <;> simp [isScalarTy] at h <;> cases j <;> simp [validateTy, errsOf]

theorem errsOf_absent_len (d : Desc) : (errsOf (absentField d)).length ≤ 1 := by
  unfold absentField
  cases d.dflt with
  | some v => simp [errsOf]
  | none => by_cases hopt : isOptTy d.ty = true <;> simp [hopt, errsOf]

theorem errsOf_bindStr_len (d : Desc) (s : String) :
    (errsOf (bindStrField d s)).length ≤ 1 := by
  unfold bindStrField
  cases coerceStr d.ty s <;> simp [errsOf]

theorem fieldErrors_scalar_len (raw : RawSources) (d : Desc)
    (h : isScalarTy d.ty = true) : (fieldErrors raw d).length ≤ 1 := by
  rw [fieldErrors_eq, List.length_map]
  obtain ⟨n, w, t, src, df⟩ := d
  simp only at h ⊢
  cases src
  case body =>
    rw [show coreBindField raw ⟨n, w, t, .body, df⟩
        = (validateTy "" t raw.body).map (fun v => [(n, v)]) from rfl]
    rw [errsOf_map]
    exact validateTy_scalar_errs_len _ _ _ h
  case query =>
    cases t <;> simp [isScalarTy] at h <;>
      · simp only [coreBindField]
        cases raw.query.lookup w with
        | none => exact errsOf_absent_len _
        | some vs =>
          cases vs with
          | nil => exact errsOf_absent_len _
          | cons s rest => exact errsOf_bindStr_len _ _
  case header =>
    simp only [coreBindField]
    cases raw.headers.lookup w with
    | none => exact errsOf_absent_len _
    | some s => exact errsOf_bindStr_len _ _
  case cookie =>
    simp only [coreBindField]
    cases raw.cookies.lookup w with
    | none => exact errsOf_absent_len _
    | some s => exact errsOf_bindStr_len _ _
  case pathParam =>
    simp only [coreBindField]
    cases raw.pathParams.lookup w with
    | none => exact errsOf_absent_len _
    | some s => exact errsOf_bindStr_len _ _

/-- C2: for every input invalid in two or more independent fields, bind
returns a single failure aggregating, in field-declaration order, each
field's errors (never stopping at the first error); every error names
the bucket its raw value came from as its source, every type-mismatch
error renders a message of the form Expected \x60type\x60, got
\x60actual-type\x60, and a field of scalar declared type contributes at
most one error. -/
theorem bind_aggregates_all_invalid_fields (descs : List Desc) (raw : RawSources)
    (h : 2 ≤ (descs.filter (fun d => !(fieldErrors raw d).isEmpty)).length) :
    bind descs raw = .failure ((descs.map (fieldErrors raw)).flatten)
      ∧ (descs.map (fieldErrors raw)).flatten ≠ []
      ∧ (∀ d ∈ descs, ∀ e ∈ fieldErrors raw d,
          e.src = some d.src
            ∧ ∀ t a, e.msg = .expectedGot t a → e.message = expectedGotMsg t a)
      ∧ (∀ d ∈ descs, isScalarTy d.ty = true → (fieldErrors raw d).length ≤ 1) := by
  have hjoin : (descs.map (fieldErrors raw)).flatten ≠ [] := by
    intro hnil
    have hall : ∀ d ∈ descs, fieldErrors raw d = [] := by
      intro d hd
      have := List.flatten_eq_nil_iff.mp hnil
      exact this _ (List.mem_map_of_mem _ hd)
    have hfil : descs.filter (fun d => !(fieldErrors raw d).isEmpty) = [] := by
      refine List.filter_eq_nil_iff.mpr ?_
      intro d hd
      simp [hall d hd]
    rw [hfil] at h
    simp at h
  refine ⟨?_, hjoin, ?_, ?_⟩
  · unfold bind
    rw [foldl_bindStep]
    simp [hjoin]
  · intro d hd e he
    rw [fieldErrors_eq] at he
    obtain ⟨e₀, he₀, rfl⟩ := List.mem_map.mp he
    refine ⟨rfl, ?_⟩
    intro t a hta
    simp only [VError.withSrc] at hta ⊢
    simp [VError.message, hta, ErrMsg.render]
  · intro d hd hs
    exact fieldErrors_scalar_len raw d hs

/-! Rename-strategy round-trip. -/

/-- A single-field structure holding one required string field named
`n`, wire name defaulting to the declared name. -/
def oneStrField (n : String) : FType :=
  .tStruct (.cons (reqField n) .tStr .nil)

/-- A structure whose single field `n` holds a nested single-field
structure with field `m`. -/
def nestedStrField (n m : String) : FType :=
  .tStruct (.cons (reqField n) (oneStrField m) .nil)

/-- C3: for every field name and every rename strategy (the built-in
upper/lower/camel/pascal and any custom string-to-string function),
binding input keyed by the strategy's output wire name populates the
declared field and serializing the same structure uses the same wire
name, also for nested structure fields; in particular camel maps
spam_bar to spamBar and pascal maps spam_bar to SpamBar. -/
theorem rename_strategy_round_trip (strat : RenameStrategy) (n m v : String) :
    validateTy "" (renameTy strat (oneStrField n))
        (.obj [(applyStrategy strat n, .jstr v)])
      = .ok (.vStruct [(n, .vStr v)])
    ∧ toBuiltins (renameTy strat (oneStrField n)) (.vStruct [(n, .vStr v)])
      = .obj [(applyStrategy strat n, .jstr v)]
    ∧ validateTy "" (renameTy strat (nestedStrField n m))
        (.obj [(applyStrategy strat n, .obj [(applyStrategy strat m, .jstr v)])])
      = .ok (.vStruct [(n, .vStruct [(m, .vStr v)])])
    ∧ toBuiltins (renameTy strat (nestedStrField n m))
        (.vStruct [(n, .vStruct [(m, .vStr v)])])
      = .obj [(applyStrategy strat n, .obj [(applyStrategy strat m, .jstr v)])]
    ∧ applyStrategy .camel "spam_bar" = "spamBar"
    ∧ applyStrategy .pascal "spam_bar" = "SpamBar" := by
  refine ⟨?_, ?_, ?_, ?_, by decide, by decide⟩ <;>
    simp [oneStrField, nestedStrField, reqField, renameTy, renameFs, validateTy,
      validateFields, toBuiltins, encodeTy, encodeFs, List.lookup, combineApp,
      Except.map]

/-- C3 witness: camel renaming of spam_bar binds wire name spamBar onto
the declared field. -/
theorem rename_strategy_witness :
    validateTy "" (renameTy .camel (oneStrField "spam_bar")) (.obj [("spamBar", .jstr "x")])
      = .ok (.vStruct [("spam_bar", .vStr "x")]) :=
  (rename_strategy_round_trip .camel "spam_bar" "unused" "x").1

/-! Sequence query-parameter binding. -/

/-- The optional-sequence query descriptor of the section 8 scenario:
field `a` declared as an optional sequence of int whose default is the
absent marker. -/
def seqQueryDesc : Desc :=
  ⟨"a", "a", .tOpt (.tSeq .tInt), .query, some .vNone⟩

theorem coerceElems_ok_of_parses (name : String) (vs : List String) (ns : List Int) (i : Nat)
    (h : vs.map parseIntStr = ns.map some) :
    coerceElems name .tInt i vs = .ok (ns.map .vInt) := by
  induction vs generalizing ns i with
  | nil =>
    cases ns with
    | nil => rfl
    | cons n rest => simp at h
  | cons s rest ih =>
    cases ns with
    | nil => simp at h
    | cons n ns₂ =>
      simp only [List.map_cons, List.cons.injEq] at h
      obtain ⟨h1, h2⟩ := h
      simp [coerceElems, coerceStr, h1, ih ns₂ (i + 1) h2, combineApp]

/-- C4: when a query key appears several times and the declared field
type is a sequence of int, all occurrences are collected in appearance
order; when the key is absent and the field is optional with a declared
default, the bound value is that default (the absent marker), not an
empty sequence. -/
theorem seq_query_collects_all_occurrences (vs : List String) (ns : List Int)
    (h : vs.map parseIntStr = ns.map some) :
    bindField ⟨[("a", vs)], [], [], [], .null⟩ seqQueryDesc
      = .ok [("a", .vSeq (ns.map .vInt))]
    ∧ bindField ⟨[], [], [], [], .null⟩ seqQueryDesc = .ok [("a", .vNone)]
    ∧ Value.vNone ≠ .vSeq [] := by
  refine ⟨?_, rfl, by simp⟩
  simp [bindField, coreBindField, seqQueryDesc, List.lookup, underOpt,
    coerceElems_ok_of_parses "a" vs ns 0 h, Except.map]

/-- C4 witness: query a=1&a=2&a=3 binds a to [1, 2, 3] in order. -/
theorem seq_query_witness :
    (["1", "2", "3"].map parseIntStr = [(1 : Int), 2, 3].map some)
    ∧ bindField ⟨[("a", ["1", "2", "3"])], [], [], [], .null⟩ seqQueryDesc
        = .ok [("a", .vSeq [.vInt 1, .vInt 2, .vInt 3])] :=
  ⟨rfl, (seq_query_collects_all_occurrences ["1", "2", "3"] [1, 2, 3] rfl).1⟩

/-! Boolean coercion. -/

/-- C5 counterexample: the claim admits only the four literal tokens and
calls every other token a coercion error, but the spec's coercion is
case-insensitive: "True" differs from all four literal tokens yet
coerces to true rather than erroring. -/
theorem coerce_bool_counterexample :
    coerceBool "True" = .ok (.vBool true)
      ∧ "True" ≠ "1" ∧ "True" ≠ "true" ∧ "True" ≠ "0" ∧ "True" ≠ "false" :=
  ⟨rfl, by decide, by decide, by decide, by decide⟩

/-- C5 (amended): bool coercion matches the tokens case-insensitively —
a raw string lowercasing to "1" or "true" coerces to true, one
lowercasing to "0" or "false" coerces to false, and every other token
is a coercion error. -/
theorem coerce_bool_case_insensitive (s : String) :
    (coerceBool s = .ok (.vBool true) ↔ (lowerStr s = "1" ∨ lowerStr s = "true"))
    ∧ (coerceBool s = .ok (.vBool false) ↔ (lowerStr s = "0" ∨ lowerStr s = "false"))
    ∧ (coerceBool s = .error (.expectedGot "bool" "str")
        ↔ ¬(lowerStr s = "1" ∨ lowerStr s = "true"
            ∨ lowerStr s = "0" ∨ lowerStr s = "false")) := by
  unfold coerceBool
  split_ifs with h1 h2
  · obtain h | h := h1 <;> simp_all
  · obtain h | h := h2 <;> simp_all
  · simp_all

/-- C5 witness: "TRUE" coerces to true under the amended rule. -/
theorem coerce_bool_witness : coerceBool "TRUE" = .ok (.vBool true) :=
  (coerce_bool_case_insensitive "TRUE").1.mpr (by decide)

/-! Partial-patch frame property. -/

theorem lookup_applyPatch (existing pv : List (String × Value)) (m : String) :
    (applyPatch existing pv).lookup m
      = (existing.lookup m).map (fun v => (pv.lookup m).getD v) := by
  induction existing with
  | nil => simp [applyPatch]
  | cons a rest ih =>
    obtain ⟨k, v⟩ := a
    by_cases hmk : m = k
    · subst hmk
      cases hpk : pv.lookup m <;>
        simp [applyPatch, List.lookup, hpk]
    · have hb : (m == k) = false := beq_eq_false_iff_ne.mpr hmk
      cases hpk : pv.lookup k <;>
        simp [applyPatch, List.lookup, hb, hpk] <;>
          simpa [applyPatch] using ih

/-- C7: applyPatch overwrites exactly the attributes present in the
partial values and leaves every other attribute of the existing
instance unchanged — patching an existing User(name="John", age=42)
with {age: 41} changes only age — and partial-mode binding ignores
values supplied for read-only fields, so they are never patched. -/
theorem apply_patch_frame (existing pv : List (String × Value)) (m : String) :
    applyPatch existing [] = existing
    ∧ (pv.lookup m = none → (applyPatch existing pv).lookup m = existing.lookup m)
    ∧ (∀ w, pv.lookup m = some w →
        (applyPatch existing pv).lookup m = (existing.lookup m).map (fun _ => w))
    ∧ applyPatch
        [("name", .vStr "John"), ("age", .vInt 42), ("read_only", .vStr "read-only")]
        [("age", .vInt 41)]
      = [("name", .vStr "John"), ("age", .vInt 41), ("read_only", .vStr "read-only")]
    ∧ bindFieldsPatchMode userFields [("age", .jint 41), ("read_only", .jstr "whoops")]
      = .ok [("age", .vInt 41)] := by
  refine ⟨?_, ?_, ?_, rfl, rfl⟩
  · simp [applyPatch]
  · intro h
    rw [lookup_applyPatch, h]
    cases existing.lookup m <;> simp
  · intro w h
    rw [lookup_applyPatch, h]
    cases existing.lookup m <;> simp

/-- C7 witness: patching with a mapping lacking "name" leaves the
"name" attribute unchanged. -/
theorem apply_patch_witness :
    ([("age", Value.vInt 41)].lookup "name" = none)
    ∧ (applyPatch [("name", Value.vStr "John"), ("age", Value.vInt 42)]
          [("age", Value.vInt 41)]).lookup "name"
        = [("name", Value.vStr "John"), ("age", Value.vInt 42)].lookup "name" :=
  ⟨rfl,
    (apply_patch_frame [("name", .vStr "John"), ("age", .vInt 42)]
        [("age", .vInt 41)] "name").2.1 rfl⟩

/-! Nested exclusion. -/

/-- The top-level keys of a JSON mapping (empty for non-mappings). -/
def objKeys : Json → List String
  | .obj kvs => kvs.map Prod.fst
  | _ => []

/-- The value under a top-level key of a JSON mapping (null when the
key is absent or the value is not a mapping). -/
def objGet (j : Json) (k : String) : Json :=
  match j with
  | .obj kvs => (kvs.lookup k).getD .null
  | _ => .null

/-- The nested structure `foo: {bar, baz}`. -/
def nestedFooFields : Fields :=
  .cons (reqField "bar") .tStr (.cons (reqField "baz") .tStr .nil)

/-- The nesting structure of the section 8 nested-exclusion scenario. -/
def nestingBarTy : FType :=
  .tStruct (.cons (reqField "foo") (.tStruct nestedFooFields) .nil)

/-- The nesting structure with dotted exclude set {"foo.baz"} applied. -/
def nestingBarEx : FType :=
  applyExcl ["foo.baz"] "" nestingBarTy

/-- C8: with exclude set {"foo.baz"}, the toBuiltins output never
contains baz under foo whatever the serialized value, and binding input
that supplies baz under foo silently ignores it: binding succeeds with
the same result as for the input without it. -/
theorem nested_exclusion_drops_foo_baz (v : Value) (bazj : Json) (barv : String) :
    "baz" ∉ objKeys (objGet (toBuiltins nestingBarEx v) "foo")
    ∧ validateTy "" nestingBarEx (.obj [("foo", .obj [("bar", .jstr barv), ("baz", bazj)])])
      = .ok (.vStruct [("foo", .vStruct [("bar", .vStr barv)])])
    ∧ validateTy "" nestingBarEx (.obj [("foo", .obj [("bar", .jstr barv), ("baz", bazj)])])
      = validateTy "" nestingBarEx (.obj [("foo", .obj [("bar", .jstr barv)])]) := by
  have hEx : nestingBarEx
      = .tStruct (.cons (reqField "foo")
          (.tStruct (.cons (reqField "bar") .tStr
            (.cons ⟨"baz", "baz", none, true, false⟩ .tStr .nil))) .nil) := rfl
  refine ⟨?_, ?_, ?_⟩
  · rw [hEx]
    cases v with
    | vStruct kvs =>
      simp only [toBuiltins, encodeTy, encodeFs, reqField]
      cases hw : kvs.lookup "foo" with
      | none => simp [objGet, objKeys, List.lookup]
      | some w =>
        cases w <;>
          simp [objGet, objKeys, List.lookup, encodeTy, encodeFs]
    | vNone => simp [toBuiltins, encodeTy, objGet, objKeys]
    | vBool b => simp [toBuiltins, encodeTy, objGet, objKeys]
    | vInt n => simp [toBuiltins, encodeTy, objGet, objKeys]
    | vStr x => simp [toBuiltins, encodeTy, objGet, objKeys]
    | vSeq xs => simp [toBuiltins, encodeTy, objGet, objKeys]
  · rw [hEx]
    simp [validateTy, validateFields, reqField, List.lookup, joinKey,
      combineApp, Except.map]
  · rw [hEx]
    simp [validateTy, validateFields, reqField, List.lookup, joinKey,
      combineApp, Except.map]

/-- C8 witness: the builtins representation of a populated instance has
no baz under foo. -/
theorem nested_exclusion_witness :
    "baz" ∉ objKeys (objGet
      (toBuiltins nestingBarEx
        (.vStruct [("foo", .vStruct [("bar", .vStr "hello"), ("baz", .vStr "x")])])) "foo") :=
  (nested_exclusion_drops_foo_baz
    (.vStruct [("foo", .vStruct [("bar", .vStr "hello"), ("baz", .vStr "x")])])
    (.jstr "x") "hello").1

/-! Private-field convention. -/

/-- A structure with an ordinary field bar and a second int field whose
name is supplied (underscore-leading in the scenarios). -/
def privateFooFields (m : String) : Fields :=
  .cons (reqField "bar") .tStr (.cons (reqField m) .tInt .nil)

/-- The structure type around `privateFooFields`. -/
def privateFooTy (m : String) : FType :=
  .tStruct (privateFooFields m)

/-- C9: with the private-field convention enabled (the default), every
field whose name starts with an underscore is excluded from input
binding — a supplied value for it, even an invalid one, is ignored
without error — and from serialized output; with the convention
disabled such fields bind and serialize like ordinary fields. -/
theorem private_fields_convention (m : String) (h : startsUnderscore m = true)
    (x : Json) (b : String) (n : Int) (v : Value) :
    validateTy "" (applyPrivate true (privateFooTy m)) (.obj [("bar", .jstr b), (m, x)])
      = .ok (.vStruct [("bar", .vStr b)])
    ∧ m ∉ objKeys (toBuiltins (applyPrivate true (privateFooTy m)) v)
    ∧ validateTy "" (applyPrivate false (privateFooTy m)) (.obj [("bar", .jstr b), (m, .jint n)])
      = .ok (.vStruct [("bar", .vStr b), (m, .vInt n)])
    ∧ objKeys (toBuiltins (applyPrivate false (privateFooTy m))
        (.vStruct [("bar", .vStr b), (m, .vInt n)]))
      = ["bar", m] := by
  have hmbar : m ≠ "bar" := by
    intro hm
    rw [hm] at h
    exact absurd h (by decide)
  have hbbar : (m == "bar") = false := beq_eq_false_iff_ne.mpr hmbar
  refine ⟨?_, ?_, ?_, ?_⟩
  · simp [applyPrivate, applyPrivateFs, privateFooTy, privateFooFields, reqField,
      validateTy, validateFields, h, List.lookup, combineApp, Except.map, joinKey,
      show startsUnderscore "bar" = false from rfl]
  · cases v with
    | vStruct kvs =>
      simp only [applyPrivate, applyPrivateFs, privateFooTy, privateFooFields,
        reqField, toBuiltins, encodeTy, encodeFs, h,
        show startsUnderscore "bar" = false from rfl]
      simp [objKeys, hmbar]
    | vNone => simp [applyPrivate, privateFooTy, toBuiltins, encodeTy, objKeys]
    | vBool c => simp [applyPrivate, privateFooTy, toBuiltins, encodeTy, objKeys]
    | vInt k => simp [applyPrivate, privateFooTy, toBuiltins, encodeTy, objKeys]
    | vStr c => simp [applyPrivate, privateFooTy, toBuiltins, encodeTy, objKeys]
    | vSeq xs => simp [applyPrivate, privateFooTy, toBuiltins, encodeTy, objKeys]
  · simp [applyPrivate, applyPrivateFs, privateFooTy, privateFooFields, reqField,
      validateTy, validateFields, List.lookup, hbbar, combineApp, Except.map, joinKey]
  · simp [applyPrivate, applyPrivateFs, privateFooTy, privateFooFields, reqField,
      toBuiltins, encodeTy, encodeFs, List.lookup, hbbar, objKeys]

/-- C9 witness: with the convention enabled, field _baz ignores the
supplied (even ill-typed) value and binding succeeds without it. -/
theorem private_fields_witness :
    startsUnderscore "_baz" = true
    ∧ validateTy "" (applyPrivate true (privateFooTy "_baz"))
        (.obj [("bar", .jstr "hello"), ("_baz", .jstr "world")])
      = .ok (.vStruct [("bar", .vStr "hello")]) :=
  ⟨rfl, (private_fields_convention "_baz" rfl (.jstr "world") "hello" 0 .vNone).1⟩

/-- Descriptors of a handler taking a body structure, a query int, a
header int and a cookie int (the multi-bucket invalid-input scenario). -/
def multiBucketDescs : List Desc :=
  [parentDesc,
   ⟨"int_param", "int_param", .tInt, .query, none⟩,
   ⟨"int_header", "X-SOME-INT", .tInt, .header, none⟩,
   ⟨"int_cookie", "int-cookie", .tInt, .cookie, none⟩]

/-- Raw sources invalid in every bucket: the section 8 body plus
non-numeric query, header and cookie values. -/
def multiBucketRaw : RawSources :=
  ⟨[("int_param", ["param"])], [("X-SOME-INT", "header")], [("int-cookie", "cookie")],
   [], c1body⟩

/-- C2 witness: a request invalid in all four fields fails with every
field's errors aggregated. -/
theorem bind_aggregates_witness :
    2 ≤ (multiBucketDescs.filter
          (fun d => !(fieldErrors multiBucketRaw d).isEmpty)).length
    ∧ bind multiBucketDescs multiBucketRaw
        = .failure ((multiBucketDescs.map (fieldErrors multiBucketRaw)).flatten) :=
  ⟨by decide, (bind_aggregates_all_invalid_fields multiBucketDescs multiBucketRaw (by decide)).1⟩

end Litestar